import Mathlib

/-!
A shallow embedding of the `ColorPickerServer` room coordinator.

This file models `src/src/routes/index.tsx` (the `ColorPickerServer` class built
on `partyserver`) as an executable state machine and proves properties of its
connect / message / close handlers.

Modelling decisions, all taken from the source:

* The `connectedUsers` JavaScript `Map` is an insertion-ordered association
  list with unique keys; `Map.set` on an existing key updates it in place,
  `Map.delete` removes the entry, and iteration follows insertion order.
* The transport's live connection set (`getConnections()`) is a list of
  connection ids kept alongside the session table.  The transport adds a
  connection before `onConnect` runs and removes it before `onClose` runs.
* Outbound traffic is recorded as a list of effects: `conn.send` becomes
  `Effect.sendTo`, `this.broadcast(msg, excl)` becomes `Effect.broadcast`
  with the exclusion list; a broadcast is delivered to every live connection
  whose id is not excluded.
* `JSON.parse` of an inbound frame either fails (`CMsg.malformed`), yields an
  object whose `type` matches no case of the `switch` (`CMsg.unknownType`),
  or yields one of the five recognised message shapes.  Because `data` is
  untyped, every payload field of a recognised message is an `Option`:
  a missing field is `none` (JavaScript `undefined`), and the handlers run
  regardless, exactly as the untyped code does.
* Cursor position / normal payloads are 3-component vectors: JavaScript
  objects, hence always truthy, so the replay guard
  `user.lastCursorPosition && user.lastCursorNormal` is truth of `Option.isSome`.
* `Math.random()` draws are abstracted as rationals in `[0, 1)` supplied to
  the connect event; `generateRandomColor` produces the HSL triple that the
  template string `hsl(hue, sat%, light%)` encodes.
* Opaque pass-through payloads (`rgb`, `camera`) are kept as strings standing
  for their JSON text; the server never inspects them.
-/

namespace ColorPicker

abbrev SessionId := String
abbrev UserId := String

/-- An opaque client-supplied JSON payload (the `rgb` and `camera` fields),
represented by its serialised text; the server relays it without inspection. -/
abbrev JsonVal := String

/-- A 3D vector payload (cursor position or surface normal).  As a JavaScript
object it is always truthy. -/
structure Vec3 where
  x : Int
  y : Int
  z : Int
deriving DecidableEq, Repr

/-- The HSL triple produced by `generateRandomColor` and carried by the
`hsl(h, s%, l%)` string: integer hue, rational saturation and lightness. -/
structure HSL where
  hue : Int
  sat : Rat
  light : Rat
deriving DecidableEq, Repr

/-- One value of the `connectedUsers` map:
`{ color; persistentUserId?; lastCursorPosition?; lastCursorNormal? }`.
`color` is declared `string` in the source but, the code being untyped at
runtime, an inbound `user-color-change` frame can store `undefined` in it,
so it is an `Option` here. -/
structure Session where
  color : Option HSL
  persistentUserId : Option UserId
  lastCursorPosition : Option Vec3
  lastCursorNormal : Option Vec3
deriving DecidableEq, Repr

/-- JavaScript truthiness of a possibly-absent object payload: `undefined` is
falsy, an object is truthy. -/
def truthy : Option Vec3 → Bool
  | none => false
  | some _ => true

/-- Inbound client frames after `JSON.parse`, one constructor per recognised
`type` plus the unrecognised-`type` and parse-failure cases.  Payload fields
are optional because the code never validates their presence. -/
inductive CMsg
  | identify (persistentUserId : Option UserId)
  | cursorMove (position normal : Option Vec3) (color : Option HSL) (rgb : Option JsonVal)
  | cursorLeave
  | userColorChange (color : Option HSL)
  | cameraSync (camera : Option JsonVal)
  | unknownType
  | malformed
deriving DecidableEq, Repr

/-- Outbound server frames, one constructor per `type` the server serialises. -/
inductive SMsg
  | userJoined (sessionId : SessionId) (color : Option HSL)
  | cursorMove (sessionId : SessionId) (position normal : Option Vec3)
      (color : Option HSL) (rgb : Option JsonVal)
  | cursorLeave (sessionId : SessionId)
  | userColorChange (sessionId : SessionId) (color : Option HSL)
  | cameraSync (camera : Option JsonVal)
  | userDisconnect (sessionId : SessionId)
  | userCount (count : Nat)
  | userIdentified (sessionId : SessionId)
deriving DecidableEq, Repr

/-- An outbound transmission: a direct `conn.send` to one connection, or a
`this.broadcast` to every live connection except the listed ids. -/
inductive Effect
  | sendTo (target : SessionId) (msg : SMsg)
  | broadcast (msg : SMsg) (excluding : List SessionId)
deriving DecidableEq, Repr

/-- The connections a single effect reaches, given the live connection list. -/
def recipients (conns : List SessionId) : Effect → List SessionId
  | .sendTo target _ => if target ∈ conns then [target] else []
  | .broadcast _ excluding => conns.filter (fun c => decide (c ∉ excluding))

/-- The whole server state: the `connectedUsers` map (insertion-ordered
association list) and the transport's live connection list. -/
structure ServerState where
  connectedUsers : List (SessionId × Session)
  connections : List SessionId
deriving DecidableEq, Repr

/-- JavaScript `Map.get`. -/
def mapGet (k : SessionId) : List (SessionId × Session) → Option Session
  | [] => none
  | (k', v) :: rest => if k' = k then some v else mapGet k rest

/-- JavaScript `Map.set`: update in place when the key exists, append otherwise
(JavaScript `Map` keeps the original insertion position on overwrite). -/
def mapSet (k : SessionId) (v : Session) : List (SessionId × Session) → List (SessionId × Session)
  | [] => [(k, v)]
  | (k', v') :: rest => if k' = k then (k, v) :: rest else (k', v') :: mapSet k v rest

/-- JavaScript `Map.delete`. -/
def mapDelete (k : SessionId) (m : List (SessionId × Session)) : List (SessionId × Session) :=
  m.filter (fun e => decide (e.1 ≠ k))

/-- The keys of the session table, in insertion order. -/
def tableKeys (m : List (SessionId × Session)) : List SessionId :=
  m.map (·.1)

/-- The three `Math.random()` draws consumed by one `generateRandomColor`
call, each a rational in `[0, 1)`. -/
structure Draws where
  r1 : Rat
  r2 : Rat
  r3 : Rat
deriving DecidableEq, Repr

/-- The `generateRandomColor` method:
`hue = Math.floor(Math.random() * 360)`,
`saturation = 70 + Math.random() * 30`,
`lightness = 50 + Math.random() * 20`. -/
def generateRandomColor (d : Draws) : HSL :=
  { hue := Rat.floor (d.r1 * 360)
  , sat := 70 + d.r2 * 30
  , light := 50 + d.r3 * 20 }

/-- The `broadcastUserCount` method: count `getConnections()` and broadcast it with no
exclusion list. -/
def broadcastUserCount (s : ServerState) : Effect :=
  .broadcast (.userCount s.connections.length) []

/-- The body of the `for` loop of `sendExistingUsers` for one map entry:
skip the new connection itself; otherwise send a `user-joined` roster entry
and, when both stored cursor fields are truthy, replay a `cursor-move`
(which carries no `rgb` field). -/
def rosterEntry (connId : SessionId) (e : SessionId × Session) : List Effect :=
  if e.1 = connId then []
  else
    .sendTo connId (.userJoined e.1 e.2.color)
    :: (if truthy e.2.lastCursorPosition && truthy e.2.lastCursorNormal then
          [.sendTo connId
            (.cursorMove e.1 e.2.lastCursorPosition e.2.lastCursorNormal e.2.color none)]
        else [])

/-- The `sendExistingUsers` method: iterate the map in insertion order. -/
def sendExistingUsers (s : ServerState) (connId : SessionId) : List Effect :=
  (s.connectedUsers.map (rosterEntry connId)).flatten

/-- The `onConnect` handler (run after the transport has registered the connection):
store a fresh session with a random color, send the roster, send the new
user its own identity, broadcast the join excluding the new connection, and
broadcast the user count. -/
def onConnect (s : ServerState) (connId : SessionId) (d : Draws) :
    ServerState × List Effect :=
  let userColor := generateRandomColor d
  let freshSession : Session :=
    { color := some userColor, persistentUserId := none
    , lastCursorPosition := none, lastCursorNormal := none }
  let s1 : ServerState :=
    { s with connectedUsers := mapSet connId freshSession s.connectedUsers }
  (s1,
    sendExistingUsers s1 connId
    ++ [ .sendTo connId (.userJoined connId (some userColor))
       , .broadcast (.userJoined connId (some userColor)) [connId]
       , broadcastUserCount s1 ])

/-- The `cleanupOldSessions` method: collect every other session whose
`persistentUserId` strictly equals the given one (JavaScript `===`, so
`undefined === undefined` also matches), then delete each and broadcast its
departure. -/
def cleanupOldSessions (users : List (SessionId × Session)) (pid : Option UserId)
    (currentSessionId : SessionId) : List (SessionId × Session) × List Effect :=
  let toRemove :=
    (users.filter (fun e =>
      decide (e.2.persistentUserId = pid ∧ e.1 ≠ currentSessionId))).map (·.1)
  ( toRemove.foldl (fun m sid => mapDelete sid m) users
  , toRemove.map (fun sid => .broadcast (.userDisconnect sid) []) )

/-- The `onMessage` handler: the `switch` over `data.type`.  A parse failure or an
unrecognised `type` falls through with no effect. -/
def onMessage (s : ServerState) (sender : SessionId) : CMsg → ServerState × List Effect
  | .identify pid =>
      match mapGet sender s.connectedUsers with
      | some u =>
          let users1 := mapSet sender { u with persistentUserId := pid } s.connectedUsers
          let cleaned := cleanupOldSessions users1 pid sender
          ({ s with connectedUsers := cleaned.1 },
            cleaned.2 ++ [.sendTo sender (.userIdentified sender)])
      | none =>
          (s, [.sendTo sender (.userIdentified sender)])
  | .cursorMove pos normal _color rgb =>
      match mapGet sender s.connectedUsers with
      | some u =>
          let u' : Session := { u with lastCursorPosition := pos, lastCursorNormal := normal }
          ({ s with connectedUsers := mapSet sender u' s.connectedUsers },
            [.broadcast (.cursorMove sender pos normal u.color rgb) [sender]])
      | none => (s, [])
  | .cursorLeave =>
      (s, [.broadcast (.cursorLeave sender) [sender]])
  | .userColorChange c =>
      match mapGet sender s.connectedUsers with
      | some u =>
          ({ s with connectedUsers := mapSet sender { u with color := c } s.connectedUsers },
            [.broadcast (.userColorChange sender c) []])
      | none => (s, [])
  | .cameraSync cam =>
      (s, [.broadcast (.cameraSync cam) [sender]])
  | .unknownType => (s, [])
  | .malformed => (s, [])

/-- The `onClose` handler (run after the transport has dropped the connection): delete
the session, broadcast the departure, broadcast the user count. -/
def onClose (s : ServerState) (connId : SessionId) : ServerState × List Effect :=
  let s1 : ServerState := { s with connectedUsers := mapDelete connId s.connectedUsers }
  (s1, [.broadcast (.userDisconnect connId) [], broadcastUserCount s1])

/-- The three transport events the coordinator reacts to. -/
inductive Event
  | connect (id : SessionId) (d : Draws)
  | message (sender : SessionId) (m : CMsg)
  | close (id : SessionId)
deriving DecidableEq, Repr

/-- One serialized event dispatch: the transport updates its connection list,
then the handler runs. -/
def step (s : ServerState) : Event → ServerState × List Effect
  | .connect id d =>
      onConnect { s with connections := s.connections ++ [id] } id d
  | .message sender m => onMessage s sender m
  | .close id =>
      onClose { s with connections := s.connections.filter (fun c => decide (c ≠ id)) } id

/-- The empty room. -/
def init : ServerState := { connectedUsers := [], connections := [] }

/-- Run a sequence of events from the empty room, accumulating all effects. -/
def run (evs : List Event) : ServerState × List Effect :=
  evs.foldl (fun acc ev =>
    let r := step acc.1 ev
    (r.1, acc.2 ++ r.2)) (init, [])

end ColorPicker

namespace ColorPicker

/-! Basic facts about the association-list model of the JavaScript `Map`. -/

theorem mapGet_mapSet_self (k : SessionId) (v : Session) (m : List (SessionId × Session)) :
    mapGet k (mapSet k v m) = some v := by
  induction m with
  | nil => simp [mapSet, mapGet]
  | cons e rest ih =>
      obtain ⟨a, b⟩ := e
      simp only [mapSet]
      by_cases ha : a = k
      · simp [ha, mapGet]
      · simp [ha, mapGet, ih]

theorem mapGet_mapSet_ne (k k' : SessionId) (v : Session) (m : List (SessionId × Session))
    (h : k ≠ k') : mapGet k (mapSet k' v m) = mapGet k m := by
  induction m with
  | nil => simp [mapSet, mapGet, Ne.symm h]
  | cons e rest ih =>
      obtain ⟨a, b⟩ := e
      simp only [mapSet]
      by_cases ha : a = k'
      · subst ha
        simp [mapGet, Ne.symm h]
      · by_cases hk : a = k <;> simp [mapGet, ha, hk, h, ih]

theorem mapGet_mapDelete_self (k : SessionId) (m : List (SessionId × Session)) :
    mapGet k (mapDelete k m) = none := by
  induction m with
  | nil => simp [mapDelete, mapGet]
  | cons e rest ih =>
      obtain ⟨a, b⟩ := e
      by_cases ha : a = k
      · simpa [mapDelete, List.filter_cons, ha] using ih
      · simpa [mapDelete, List.filter_cons, ha, mapGet] using ih

theorem mapGet_mapDelete_ne (k k' : SessionId) (m : List (SessionId × Session))
    (h : k ≠ k') : mapGet k (mapDelete k' m) = mapGet k m := by
  induction m with
  | nil => simp [mapDelete, mapGet]
  | cons e rest ih =>
      obtain ⟨a, b⟩ := e
      simp only [mapDelete, ne_eq, decide_not] at ih ⊢
      by_cases ha : a = k'
      · subst ha
        simpa [List.filter_cons, mapGet, Ne.symm h] using ih
      · by_cases hk : a = k <;>
          simp [List.filter_cons, ha, hk, h, mapGet, ih]

theorem mapGet_mem_tableKeys (k : SessionId) (u : Session) (m : List (SessionId × Session))
    (h : mapGet k m = some u) : k ∈ tableKeys m := by
  induction m with
  | nil => simp [mapGet] at h
  | cons e rest ih =>
      obtain ⟨a, b⟩ := e
      by_cases ha : a = k
      · simp [tableKeys, ha]
      · simp only [mapGet, ha, if_false] at h
        simp only [tableKeys, List.map_cons, List.mem_cons]
        exact Or.inr (ih h)

theorem not_mem_tableKeys_mapGet (k : SessionId) (m : List (SessionId × Session))
    (h : mapGet k m = none) : k ∉ tableKeys m := by
  induction m with
  | nil => simp [tableKeys]
  | cons e rest ih =>
      obtain ⟨a, b⟩ := e
      by_cases ha : a = k
      · simp [mapGet, ha] at h
      · simp only [mapGet, ha, if_false] at h
        simp only [tableKeys, List.map_cons, List.mem_cons]
        rintro (hk | hk)
        · exact ha hk.symm
        · exact ih h hk

theorem mem_tableKeys_mapSet (x k : SessionId) (v : Session) (m : List (SessionId × Session))
    (h : x ∈ tableKeys (mapSet k v m)) : x = k ∨ x ∈ tableKeys m := by
  induction m with
  | nil => simpa [mapSet, tableKeys] using h
  | cons e rest ih =>
      obtain ⟨a, b⟩ := e
      by_cases ha : a = k
      · simp only [mapSet, ha, if_true, tableKeys, List.map_cons, List.mem_cons] at h ⊢
        tauto
      · simp only [mapSet, ha, if_false, tableKeys, List.map_cons, List.mem_cons] at h ⊢
        rcases h with h | h
        · tauto
        · rcases ih h with h | h <;> tauto

theorem mem_tableKeys_mapDelete (x k : SessionId) (m : List (SessionId × Session))
    (h : x ∈ tableKeys (mapDelete k m)) : x ∈ tableKeys m := by
  simp only [tableKeys, List.mem_map] at h ⊢
  obtain ⟨e, he, hx⟩ := h
  exact ⟨e, List.mem_of_mem_filter he, hx⟩

theorem not_mem_tableKeys_mapDelete_self (k : SessionId) (m : List (SessionId × Session)) :
    k ∉ tableKeys (mapDelete k m) := by
  intro h
  simp only [tableKeys, List.mem_map] at h
  obtain ⟨e, he, hx⟩ := h
  have := List.of_mem_filter he
  simp [hx] at this

theorem mapSet_fresh_append (k : SessionId) (v : Session) (m : List (SessionId × Session))
    (h : mapGet k m = none) : mapSet k v m = m ++ [(k, v)] := by
  induction m with
  | nil => simp [mapSet]
  | cons e rest ih =>
      obtain ⟨a, b⟩ := e
      by_cases ha : a = k
      · simp [mapGet, ha] at h
      · simp only [mapGet, ha, if_false] at h
        simp [mapSet, ha, ih h]

theorem mapGet_none_entry_ne (k : SessionId) (m : List (SessionId × Session))
    (h : mapGet k m = none) : ∀ e ∈ m, e.1 ≠ k := by
  induction m with
  | nil => simp
  | cons e rest ih =>
      obtain ⟨a, b⟩ := e
      by_cases ha : a = k
      · simp [mapGet, ha] at h
      · simp only [mapGet, ha, if_false] at h
        intro f hf
        rcases List.mem_cons.mp hf with hf | hf
        · simpa [hf] using ha
        · exact ih h f hf

end ColorPicker

namespace ColorPicker

/-- The frame a given effect carries. -/
def effectMsg : Effect → SMsg
  | .sendTo _ m => m
  | .broadcast m _ => m

/-- Whether a frame is a `camera-sync` frame. -/
def isCameraMsg : SMsg → Bool
  | .cameraSync _ => true
  | _ => false

/-- Whether an effect is a broadcast (as opposed to a direct send). -/
def isBroadcast : Effect → Bool
  | .broadcast _ _ => true
  | _ => false

/-- Every effect produced for one roster entry is a direct send to the new
connection, carrying either the peer's `user-joined` or its replayed
`cursor-move`. -/
theorem rosterEntry_shape (connId : SessionId) (p : SessionId × Session) (e : Effect)
    (he : e ∈ rosterEntry connId p) :
    e = .sendTo connId (.userJoined p.1 p.2.color)
    ∨ e = .sendTo connId
        (.cursorMove p.1 p.2.lastCursorPosition p.2.lastCursorNormal p.2.color none) := by
  unfold rosterEntry at he
  split at he
  · simp at he
  · rcases List.mem_cons.mp he with h | h
    · exact Or.inl h
    · split at h
      · exact Or.inr (List.mem_singleton.mp h)
      · simp at h

/-- Every effect of the roster replay is a direct send to the new connection. -/
theorem sendExistingUsers_shape (s : ServerState) (connId : SessionId) (e : Effect)
    (he : e ∈ sendExistingUsers s connId) :
    ∃ p ∈ s.connectedUsers,
      e = .sendTo connId (.userJoined p.1 p.2.color)
      ∨ e = .sendTo connId
          (.cursorMove p.1 p.2.lastCursorPosition p.2.lastCursorNormal p.2.color none) := by
  rcases List.mem_flatten.mp he with ⟨l, hl, hel⟩
  rcases List.mem_map.mp hl with ⟨p, hp, rfl⟩
  exact ⟨p, hp, rosterEntry_shape connId p e hel⟩

end ColorPicker

namespace ColorPicker

/-- C3: for every `cursor-move` message from a sender whose session is
registered, the broadcast to the other connections carries the color stored
on the sender's session; the inbound `color` field (the binder `c`) does not
occur in the produced effect, whatever its value. -/
theorem cursorMove_broadcast_uses_server_color (s : ServerState) (sender : SessionId)
    (u : Session) (pos normal : Option Vec3) (c : Option HSL) (rgb : Option JsonVal)
    (h : mapGet sender s.connectedUsers = some u) :
    (step s (.message sender (.cursorMove pos normal c rgb))).2
      = [.broadcast (.cursorMove sender pos normal u.color rgb) [sender]] := by
  simp [step, onMessage, h]

/-- Closed instance of the C3 theorem: a registered sender whose stored color
differs from the color field of its message. -/
theorem cursorMove_broadcast_uses_server_color_witness :
    mapGet "A"
      (ServerState.mk [("A", ⟨some ⟨10, 80, 60⟩, none, none, none⟩)] ["A", "B"]).connectedUsers
      = some ⟨some ⟨10, 80, 60⟩, none, none, none⟩
    ∧ (step (ServerState.mk [("A", ⟨some ⟨10, 80, 60⟩, none, none, none⟩)] ["A", "B"])
        (.message "A" (.cursorMove (some ⟨1, 2, 3⟩) (some ⟨0, 0, 1⟩) (some ⟨99, 0, 0⟩) none))).2
      = [.broadcast
          (.cursorMove "A" (some ⟨1, 2, 3⟩) (some ⟨0, 0, 1⟩) (some ⟨10, 80, 60⟩) none) ["A"]] :=
  ⟨by decide,
   cursorMove_broadcast_uses_server_color
     (ServerState.mk [("A", ⟨some ⟨10, 80, 60⟩, none, none, none⟩)] ["A", "B"]) "A"
     ⟨some ⟨10, 80, 60⟩, none, none, none⟩
     (some ⟨1, 2, 3⟩) (some ⟨0, 0, 1⟩) (some ⟨99, 0, 0⟩) none (by decide)⟩

/-- C6: a `cursor-move` message whose sender has no registered session is
silently dropped: no effect is produced and the state is unchanged. -/
theorem cursorMove_without_session_dropped (s : ServerState) (sender : SessionId)
    (pos normal : Option Vec3) (c : Option HSL) (rgb : Option JsonVal)
    (h : mapGet sender s.connectedUsers = none) :
    step s (.message sender (.cursorMove pos normal c rgb)) = (s, []) := by
  simp [step, onMessage, h]

/-- Closed instance of the C6 theorem: a sender evicted from the table (but
still connected) sends a cursor move and nothing happens. -/
theorem cursorMove_without_session_dropped_witness :
    mapGet "A" (ServerState.mk [("B", ⟨none, none, none, none⟩)] ["A", "B"]).connectedUsers = none
    ∧ step (ServerState.mk [("B", ⟨none, none, none, none⟩)] ["A", "B"])
        (.message "A" (.cursorMove (some ⟨1, 2, 3⟩) (some ⟨0, 0, 1⟩) none none))
      = (ServerState.mk [("B", ⟨none, none, none, none⟩)] ["A", "B"], []) :=
  ⟨by decide,
   cursorMove_without_session_dropped
     (ServerState.mk [("B", ⟨none, none, none, none⟩)] ["A", "B"]) "A"
     (some ⟨1, 2, 3⟩) (some ⟨0, 0, 1⟩) none none (by decide)⟩

/-- C8: a `camera-sync` message is a pure relay.  The state (hence the whole
session table: every color, persistent id, cursor field and the key set) is
unchanged and the single effect broadcasts the camera payload verbatim to
every connection except the sender; moreover no effect of any later connect
carries a `camera-sync` frame, so no camera state is replayed to joiners. -/
theorem cameraSync_pure_relay (s : ServerState) (sender : SessionId) (cam : Option JsonVal) :
    step s (.message sender (.cameraSync cam)) = (s, [.broadcast (.cameraSync cam) [sender]])
    ∧ recipients s.connections (.broadcast (.cameraSync cam) [sender])
        = s.connections.filter (fun c => decide (c ≠ sender))
    ∧ ∀ id d, ((step s (.connect id d)).2.all fun e => !isCameraMsg (effectMsg e)) = true := by
  refine ⟨rfl, ?_, ?_⟩
  · simp [recipients]
  · intro id d
    simp only [List.all_eq_true]
    intro e he
    simp only [step, onConnect, List.mem_append] at he
    rcases he with he | he
    · rcases sendExistingUsers_shape _ id e he with ⟨p, _, h | h⟩ <;> simp [h, effectMsg, isCameraMsg]
    · rcases List.mem_cons.mp he with rfl | he
      · rfl
      rcases List.mem_cons.mp he with rfl | he
      · rfl
      rcases List.mem_cons.mp he with rfl | he
      · rfl
      · simp at he

/-- C7: a `user-color-change` message from a registered sender overwrites the
stored color with the message's color field and broadcasts the sender's id
and the new color with an empty exclusion list, so the broadcast reaches
every live connection, the sender included. -/
theorem userColorChange_updates_and_reaches_sender (s : ServerState) (sender : SessionId)
    (u : Session) (c : Option HSL)
    (h : mapGet sender s.connectedUsers = some u)
    (hconn : sender ∈ s.connections) :
    mapGet sender (step s (.message sender (.userColorChange c))).1.connectedUsers
      = some { u with color := c }
    ∧ (step s (.message sender (.userColorChange c))).2
        = [.broadcast (.userColorChange sender c) []]
    ∧ recipients (step s (.message sender (.userColorChange c))).1.connections
        (.broadcast (.userColorChange sender c) []) = s.connections
    ∧ sender ∈ recipients (step s (.message sender (.userColorChange c))).1.connections
        (.broadcast (.userColorChange sender c) []) := by
  refine ⟨?_, ?_, ?_, ?_⟩
  · simp [step, onMessage, h, mapGet_mapSet_self]
  · simp [step, onMessage, h]
  · simp [step, onMessage, h, recipients]
  · simp [step, onMessage, h, recipients, hconn]

/-- Closed instance of the C7 theorem: a registered, connected sender changes
its color and the broadcast excludes nobody. -/
theorem userColorChange_updates_and_reaches_sender_witness :
    mapGet "A"
      (ServerState.mk [("A", ⟨some ⟨10, 80, 60⟩, none, none, none⟩)] ["A", "B"]).connectedUsers
      = some ⟨some ⟨10, 80, 60⟩, none, none, none⟩
    ∧ "A" ∈ (ServerState.mk [("A", ⟨some ⟨10, 80, 60⟩, none, none, none⟩)] ["A", "B"]).connections
    ∧ (mapGet "A" (step (ServerState.mk [("A", ⟨some ⟨10, 80, 60⟩, none, none, none⟩)] ["A", "B"])
          (.message "A" (.userColorChange (some ⟨200, 90, 55⟩)))).1.connectedUsers
        = some ⟨some ⟨200, 90, 55⟩, none, none, none⟩
      ∧ (step (ServerState.mk [("A", ⟨some ⟨10, 80, 60⟩, none, none, none⟩)] ["A", "B"])
          (.message "A" (.userColorChange (some ⟨200, 90, 55⟩)))).2
        = [.broadcast (.userColorChange "A" (some ⟨200, 90, 55⟩)) []]
      ∧ recipients (step (ServerState.mk [("A", ⟨some ⟨10, 80, 60⟩, none, none, none⟩)] ["A", "B"])
          (.message "A" (.userColorChange (some ⟨200, 90, 55⟩)))).1.connections
          (.broadcast (.userColorChange "A" (some ⟨200, 90, 55⟩)) [])
        = (ServerState.mk [("A", ⟨some ⟨10, 80, 60⟩, none, none, none⟩)] ["A", "B"]).connections
      ∧ "A" ∈ recipients
          (step (ServerState.mk [("A", ⟨some ⟨10, 80, 60⟩, none, none, none⟩)] ["A", "B"])
            (.message "A" (.userColorChange (some ⟨200, 90, 55⟩)))).1.connections
          (.broadcast (.userColorChange "A" (some ⟨200, 90, 55⟩)) [])) :=
  ⟨by decide, by decide,
   userColorChange_updates_and_reaches_sender
     (ServerState.mk [("A", ⟨some ⟨10, 80, 60⟩, none, none, none⟩)] ["A", "B"]) "A"
     ⟨some ⟨10, 80, 60⟩, none, none, none⟩ (some ⟨200, 90, 55⟩) (by decide) (by decide)⟩

/-- C5 counterexample: a parseable `cursor-move` frame missing its
`position`, `normal`, `color` and `rgb` fields is not dropped — the handler
still broadcasts it and still overwrites the stored cursor fields of the
sender's session.  The state is the reachable one in which "B" had
previously reported a cursor position. -/
theorem missing_field_frame_is_processed :
    ((step
        (run [ .connect "A" ⟨0, 0, 0⟩, .connect "B" ⟨0, 0, 0⟩
             , .message "B" (.cursorMove (some ⟨1, 2, 3⟩) (some ⟨0, 0, 1⟩) none none) ]).1
        (.message "B" (.cursorMove none none none none))).2.any isBroadcast = true)
    ∧ ((mapGet "B"
        (run [ .connect "A" ⟨0, 0, 0⟩, .connect "B" ⟨0, 0, 0⟩
             , .message "B" (.cursorMove (some ⟨1, 2, 3⟩) (some ⟨0, 0, 1⟩) none none) ]).1.connectedUsers).map
        Session.lastCursorPosition = some (some ⟨1, 2, 3⟩))
    ∧ ((mapGet "B"
        (step
          (run [ .connect "A" ⟨0, 0, 0⟩, .connect "B" ⟨0, 0, 0⟩
               , .message "B" (.cursorMove (some ⟨1, 2, 3⟩) (some ⟨0, 0, 1⟩) none none) ]).1
          (.message "B" (.cursorMove none none none none))).1.connectedUsers).map
        Session.lastCursorPosition = some none) := by
  decide

/-- C5 (amended): an inbound frame that is non-JSON, or whose parsed `type`
matches none of the five handled values, is dropped with no effect of any
kind and no state change; a frame with a recognised `type` but missing
fields is, by contrast, processed with the missing fields read as
`undefined`. -/
theorem unparseable_or_unknown_frames_dropped (s : ServerState) (sender : SessionId) :
    step s (.message sender .malformed) = (s, [])
    ∧ step s (.message sender .unknownType) = (s, []) :=
  ⟨rfl, rfl⟩

/-- C2 counterexample: connect "A" and "B", have both identify with the same
`persistentUserId` so that "A" is evicted from the table while its transport
connection stays open, then connect "C".  The `user-count` broadcast issued
after that connect carries 3 (the live connections) while the session table
holds 2 sessions at the moment of the broadcast. -/
theorem userCount_can_differ_from_table_size :
    Effect.broadcast (.userCount 3) [] ∈
      (step (run [ .connect "A" ⟨0, 0, 0⟩, .connect "B" ⟨0, 0, 0⟩
                 , .message "A" (.identify (some "p"))
                 , .message "B" (.identify (some "p")) ]).1
        (.connect "C" ⟨0, 0, 0⟩)).2
    ∧ (step (run [ .connect "A" ⟨0, 0, 0⟩, .connect "B" ⟨0, 0, 0⟩
                 , .message "A" (.identify (some "p"))
                 , .message "B" (.identify (some "p")) ]).1
        (.connect "C" ⟨0, 0, 0⟩)).1.connectedUsers.length = 2 := by
  decide

/-- C2 (amended): the count carried by every `user-count` broadcast a step
emits equals the number of live transport connections at the moment of the
broadcast — which coincides with the session-table size only while no
identify eviction has removed a session whose connection is still open. -/
theorem userCount_counts_connections (s : ServerState) (ev : Event) (n : Nat)
    (excl : List SessionId)
    (h : Effect.broadcast (.userCount n) excl ∈ (step s ev).2) :
    n = (step s ev).1.connections.length := by
  cases ev with
  | connect id d =>
      simp only [step, onConnect, List.mem_append] at h ⊢
      rcases h with h | h
      · rcases sendExistingUsers_shape _ id _ h with ⟨p, _, hp | hp⟩ <;> simp at hp
      · simp only [broadcastUserCount, List.mem_cons] at h
        rcases h with h | h
        · simp at h
        rcases h with h | h
        · simp at h
        rcases h with h | h
        · simp only [Effect.broadcast.injEq, SMsg.userCount.injEq] at h
          simpa using h.1
        · simp at h
  | message sender m =>
      cases m with
      | identify pid =>
          cases hm : mapGet sender s.connectedUsers with
          | none => simp [step, onMessage, hm] at h
          | some u =>
              simp only [step, onMessage, hm, cleanupOldSessions, List.mem_append,
                List.mem_map, List.mem_singleton] at h
              rcases h with ⟨sid, _, hEq⟩ | hEq <;> simp at hEq
      | cursorMove pos normal c rgb =>
          cases hm : mapGet sender s.connectedUsers with
          | none => simp [step, onMessage, hm] at h
          | some u => simp [step, onMessage, hm] at h
      | cursorLeave => simp [step, onMessage] at h
      | userColorChange c =>
          cases hm : mapGet sender s.connectedUsers with
          | none => simp [step, onMessage, hm] at h
          | some u => simp [step, onMessage, hm] at h
      | cameraSync cam => simp [step, onMessage] at h
      | unknownType => simp [step, onMessage] at h
      | malformed => simp [step, onMessage] at h
  | close id =>
      simp only [step, onClose, broadcastUserCount, List.mem_cons] at h ⊢
      rcases h with h | h
      · simp at h
      rcases h with h | h
      · simp only [Effect.broadcast.injEq, SMsg.userCount.injEq] at h
        simpa using h.1
      · simp at h

/-- Closed instance of the amended C2 theorem: the first connect broadcasts a
count of 1, the length of the live connection list. -/
theorem userCount_counts_connections_witness :
    (Effect.broadcast (.userCount 1) [] ∈ (step init (.connect "A" ⟨0, 0, 0⟩)).2)
    ∧ 1 = (step init (.connect "A" ⟨0, 0, 0⟩)).1.connections.length :=
  ⟨by decide, userCount_counts_connections init (.connect "A" ⟨0, 0, 0⟩) 1 [] (by decide)⟩

/-- C9 counterexample: "A" connects (and is assigned a color), then sends a
parseable `user-color-change` frame with no `color` field.  The handler
stores the missing field, so the still-live session's color is absent. -/
theorem color_can_become_absent :
    "A" ∈ (run [ .connect "A" ⟨0, 0, 0⟩, .message "A" (.userColorChange none) ]).1.connections
    ∧ (mapGet "A"
        (run [ .connect "A" ⟨0, 0, 0⟩
             , .message "A" (.userColorChange none) ]).1.connectedUsers).map Session.color
      = some none := by
  decide

/-- C9 (amended): at the moment of connect the new session is stored with a
freshly drawn color whose hue is the integer `floor (360 * r1)`, in
`[0, 360)`, whose saturation is `70 + 30 * r2`, in `[70, 100]`, and whose
lightness is `50 + 20 * r3`, in `[50, 70]`, for `Math.random()` draws
`r1, r2, r3` in `[0, 1)`. -/
theorem connect_assigns_random_color (s : ServerState) (id : SessionId) (d : Draws)
    (h10 : 0 ≤ d.r1) (h11 : d.r1 < 1) (h20 : 0 ≤ d.r2) (h21 : d.r2 < 1)
    (h30 : 0 ≤ d.r3) (h31 : d.r3 < 1) :
    mapGet id (step s (.connect id d)).1.connectedUsers
      = some { color := some (generateRandomColor d), persistentUserId := none
             , lastCursorPosition := none, lastCursorNormal := none }
    ∧ 0 ≤ (generateRandomColor d).hue ∧ (generateRandomColor d).hue < 360
    ∧ 70 ≤ (generateRandomColor d).sat ∧ (generateRandomColor d).sat ≤ 100
    ∧ 50 ≤ (generateRandomColor d).light ∧ (generateRandomColor d).light ≤ 70 := by
  refine ⟨?_, ?_, ?_, ?_, ?_, ?_, ?_⟩
  · simp [step, onConnect, mapGet_mapSet_self]
  · simp only [generateRandomColor]
    have h : ((0 : Int) : Rat) ≤ d.r1 * 360 := by push_cast; linarith
    exact Rat.le_floor.mpr h
  · simp only [generateRandomColor]
    by_contra hc
    push_neg at hc
    have h : ((360 : Int) : Rat) ≤ d.r1 * 360 := Rat.le_floor.mp hc
    push_cast at h
    linarith
  · simp only [generateRandomColor]
    linarith
  · simp only [generateRandomColor]
    linarith
  · simp only [generateRandomColor]
    linarith
  · simp only [generateRandomColor]
    linarith

/-- Closed instance of the amended C9 theorem at the draw `(0, 0, 0)`. -/
theorem connect_assigns_random_color_witness :
    ((0 : Rat) ≤ 0 ∧ (0 : Rat) < 1)
    ∧ (mapGet "A" (step init (.connect "A" ⟨0, 0, 0⟩)).1.connectedUsers
        = some { color := some (generateRandomColor ⟨0, 0, 0⟩), persistentUserId := none
               , lastCursorPosition := none, lastCursorNormal := none }
      ∧ 0 ≤ (generateRandomColor ⟨0, 0, 0⟩).hue ∧ (generateRandomColor ⟨0, 0, 0⟩).hue < 360
      ∧ 70 ≤ (generateRandomColor ⟨0, 0, 0⟩).sat ∧ (generateRandomColor ⟨0, 0, 0⟩).sat ≤ 100
      ∧ 50 ≤ (generateRandomColor ⟨0, 0, 0⟩).light
      ∧ (generateRandomColor ⟨0, 0, 0⟩).light ≤ 70) :=
  ⟨⟨by decide, by decide⟩,
   connect_assigns_random_color init "A" ⟨0, 0, 0⟩ (by decide) (by decide) (by decide)
     (by decide) (by decide) (by decide)⟩

/-- Setting the identifying session's own entry does not change the set of
other sessions matching a persistent id, because the scan excludes the
current session id. -/
theorem filter_pid_mapSet (m : List (SessionId × Session)) (k : SessionId) (v : Session)
    (pid : Option UserId) :
    (mapSet k v m).filter (fun e => decide (e.2.persistentUserId = pid ∧ e.1 ≠ k))
      = m.filter (fun e => decide (e.2.persistentUserId = pid ∧ e.1 ≠ k)) := by
  induction m with
  | nil => simp [mapSet]
  | cons e rest ih =>
      obtain ⟨a, b⟩ := e
      by_cases ha : a = k
      · subst ha
        simp [mapSet, List.filter_cons]
      · simp only [ne_eq, Bool.decide_and, decide_not] at ih
        simp [mapSet, ha, List.filter_cons, ih]

/-- C4: when a connection identifies with a persistent id carried by exactly
one other live session, that session alone is deleted, a `user-disconnect`
broadcast naming it is issued (followed by the identify acknowledgement),
the identifying session stays in the table with the persistent id attached,
and every other session's entry is untouched. -/
theorem identify_evicts_exact_duplicate (s : ServerState) (sender evicted : SessionId)
    (u : Session) (p : UserId)
    (hu : mapGet sender s.connectedUsers = some u)
    (hmatch : (s.connectedUsers.filter (fun e =>
        decide (e.2.persistentUserId = some p ∧ e.1 ≠ sender))).map (fun e => e.1)
      = [evicted]) :
    mapGet evicted (step s (.message sender (.identify (some p)))).1.connectedUsers = none
    ∧ mapGet sender (step s (.message sender (.identify (some p)))).1.connectedUsers
        = some { u with persistentUserId := some p }
    ∧ (∀ sid, sid ≠ sender → sid ≠ evicted →
        mapGet sid (step s (.message sender (.identify (some p)))).1.connectedUsers
          = mapGet sid s.connectedUsers)
    ∧ (step s (.message sender (.identify (some p)))).2
        = [.broadcast (.userDisconnect evicted) [], .sendTo sender (.userIdentified sender)] := by
  have hmem : evicted ∈ (s.connectedUsers.filter (fun e =>
      decide (e.2.persistentUserId = some p ∧ e.1 ≠ sender))).map (fun e => e.1) := by
    rw [hmatch]
    exact List.mem_singleton_self _
  have hne : evicted ≠ sender := by
    rcases List.mem_map.mp hmem with ⟨e, he, hfst⟩
    have hpred := List.of_mem_filter he
    simp only [decide_eq_true_eq] at hpred
    exact hfst ▸ hpred.2
  have hfilter := filter_pid_mapSet s.connectedUsers sender
    { u with persistentUserId := some p } (some p)
  simp only [step, onMessage, hu, cleanupOldSessions, hfilter, hmatch, List.foldl_cons,
    List.foldl_nil, List.map_cons, List.map_nil]
  refine ⟨?_, ?_, ?_, rfl⟩
  · exact mapGet_mapDelete_self evicted _
  · rw [mapGet_mapDelete_ne sender evicted _ (Ne.symm hne)]
    exact mapGet_mapSet_self sender _ _
  · intro sid hsender hevicted
    rw [mapGet_mapDelete_ne sid evicted _ hevicted]
    exact mapGet_mapSet_ne sid sender _ _ hsender

/-- Closed instance of the C4 theorem: "B" identifies with "p", which exactly
the other live session "A" already carries, so "A" alone is evicted. -/
theorem identify_evicts_exact_duplicate_witness :
    mapGet "B" (ServerState.mk [("A", ⟨none, some "p", none, none⟩)
      , ("B", ⟨none, none, none, none⟩)] ["A", "B"]).connectedUsers
      = some ⟨none, none, none, none⟩
    ∧ ((ServerState.mk [("A", ⟨none, some "p", none, none⟩)
        , ("B", ⟨none, none, none, none⟩)] ["A", "B"]).connectedUsers.filter (fun e =>
        decide (e.2.persistentUserId = some "p" ∧ e.1 ≠ "B"))).map (fun e => e.1) = ["A"]
    ∧ (mapGet "A" (step (ServerState.mk [("A", ⟨none, some "p", none, none⟩)
          , ("B", ⟨none, none, none, none⟩)] ["A", "B"])
          (.message "B" (.identify (some "p")))).1.connectedUsers = none
      ∧ mapGet "B" (step (ServerState.mk [("A", ⟨none, some "p", none, none⟩)
          , ("B", ⟨none, none, none, none⟩)] ["A", "B"])
          (.message "B" (.identify (some "p")))).1.connectedUsers
          = some { (⟨none, none, none, none⟩ : Session) with persistentUserId := some "p" }
      ∧ (∀ sid, sid ≠ "B" → sid ≠ "A" →
          mapGet sid (step (ServerState.mk [("A", ⟨none, some "p", none, none⟩)
            , ("B", ⟨none, none, none, none⟩)] ["A", "B"])
            (.message "B" (.identify (some "p")))).1.connectedUsers
            = mapGet sid (ServerState.mk [("A", ⟨none, some "p", none, none⟩)
              , ("B", ⟨none, none, none, none⟩)] ["A", "B"]).connectedUsers)
      ∧ (step (ServerState.mk [("A", ⟨none, some "p", none, none⟩)
          , ("B", ⟨none, none, none, none⟩)] ["A", "B"])
          (.message "B" (.identify (some "p")))).2
          = [.broadcast (.userDisconnect "A") [], .sendTo "B" (.userIdentified "B")]) :=
  ⟨by decide, by decide,
   identify_evicts_exact_duplicate
     (ServerState.mk [("A", ⟨none, some "p", none, none⟩)
       , ("B", ⟨none, none, none, none⟩)] ["A", "B"])
     "B" "A" ⟨none, none, none, none⟩ "p" (by decide) (by decide)⟩

/-- C10: an identify eviction removes the evicted session's table entry but
does not close its transport connection: the connection list is unchanged
and still contains the evicted id, the evicted id is gone from the table's
keys while every remaining key is still a live connection (so the live
connection set strictly contains the table's key set), and the identify
handler emits no `user-count` broadcast. -/
theorem identify_eviction_leaves_connection_open (s : ServerState) (sender evicted : SessionId)
    (u : Session) (p : UserId)
    (hu : mapGet sender s.connectedUsers = some u)
    (hmatch : (s.connectedUsers.filter (fun e =>
        decide (e.2.persistentUserId = some p ∧ e.1 ≠ sender))).map (fun e => e.1)
      = [evicted])
    (hconn : evicted ∈ s.connections)
    (hsub : ∀ k, k ∈ tableKeys s.connectedUsers → k ∈ s.connections) :
    (step s (.message sender (.identify (some p)))).1.connections = s.connections
    ∧ evicted ∈ (step s (.message sender (.identify (some p)))).1.connections
    ∧ evicted ∉ tableKeys (step s (.message sender (.identify (some p)))).1.connectedUsers
    ∧ (∀ k, k ∈ tableKeys (step s (.message sender (.identify (some p)))).1.connectedUsers →
        k ∈ (step s (.message sender (.identify (some p)))).1.connections)
    ∧ (∀ n excl, Effect.broadcast (.userCount n) excl
        ∉ (step s (.message sender (.identify (some p)))).2) := by
  have hfilter := filter_pid_mapSet s.connectedUsers sender
    { u with persistentUserId := some p } (some p)
  simp only [step, onMessage, hu, cleanupOldSessions, hfilter, hmatch, List.foldl_cons,
    List.foldl_nil, List.map_cons, List.map_nil]
  refine ⟨trivial, hconn, not_mem_tableKeys_mapDelete_self evicted _, ?_, ?_⟩
  · intro k hk
    have hk1 := mem_tableKeys_mapDelete k evicted _ hk
    rcases mem_tableKeys_mapSet k sender _ _ hk1 with rfl | hk2
    · exact hsub k (mapGet_mem_tableKeys k u s.connectedUsers hu)
    · exact hsub k hk2
  · intro n excl hmem
    rcases List.mem_cons.mp hmem with hEq | hmem
    · simp at hEq
    rcases List.mem_cons.mp hmem with hEq | hmem
    · simp at hEq
    · simp at hmem

/-- Closed instance of the C10 theorem on the same two-session room. -/
theorem identify_eviction_leaves_connection_open_witness :
    mapGet "B" (ServerState.mk [("A", ⟨none, some "q", none, none⟩)
      , ("B", ⟨none, none, none, none⟩)] ["A", "B"]).connectedUsers
      = some ⟨none, none, none, none⟩
    ∧ ((ServerState.mk [("A", ⟨none, some "q", none, none⟩)
        , ("B", ⟨none, none, none, none⟩)] ["A", "B"]).connectedUsers.filter (fun e =>
        decide (e.2.persistentUserId = some "q" ∧ e.1 ≠ "B"))).map (fun e => e.1) = ["A"]
    ∧ "A" ∈ (ServerState.mk [("A", ⟨none, some "q", none, none⟩)
        , ("B", ⟨none, none, none, none⟩)] ["A", "B"]).connections
    ∧ (∀ k, k ∈ tableKeys (ServerState.mk [("A", ⟨none, some "q", none, none⟩)
        , ("B", ⟨none, none, none, none⟩)] ["A", "B"]).connectedUsers →
        k ∈ (ServerState.mk [("A", ⟨none, some "q", none, none⟩)
          , ("B", ⟨none, none, none, none⟩)] ["A", "B"]).connections)
    ∧ ((step (ServerState.mk [("A", ⟨none, some "q", none, none⟩)
          , ("B", ⟨none, none, none, none⟩)] ["A", "B"])
          (.message "B" (.identify (some "q")))).1.connections
        = (ServerState.mk [("A", ⟨none, some "q", none, none⟩)
          , ("B", ⟨none, none, none, none⟩)] ["A", "B"]).connections
      ∧ "A" ∈ (step (ServerState.mk [("A", ⟨none, some "q", none, none⟩)
          , ("B", ⟨none, none, none, none⟩)] ["A", "B"])
          (.message "B" (.identify (some "q")))).1.connections
      ∧ "A" ∉ tableKeys (step (ServerState.mk [("A", ⟨none, some "q", none, none⟩)
          , ("B", ⟨none, none, none, none⟩)] ["A", "B"])
          (.message "B" (.identify (some "q")))).1.connectedUsers
      ∧ (∀ k, k ∈ tableKeys (step (ServerState.mk [("A", ⟨none, some "q", none, none⟩)
            , ("B", ⟨none, none, none, none⟩)] ["A", "B"])
            (.message "B" (.identify (some "q")))).1.connectedUsers →
          k ∈ (step (ServerState.mk [("A", ⟨none, some "q", none, none⟩)
            , ("B", ⟨none, none, none, none⟩)] ["A", "B"])
            (.message "B" (.identify (some "q")))).1.connections)
      ∧ (∀ n excl, Effect.broadcast (.userCount n) excl
          ∉ (step (ServerState.mk [("A", ⟨none, some "q", none, none⟩)
            , ("B", ⟨none, none, none, none⟩)] ["A", "B"])
            (.message "B" (.identify (some "q")))).2)) :=
  ⟨by decide, by decide, by decide, by decide,
   identify_eviction_leaves_connection_open
     (ServerState.mk [("A", ⟨none, some "q", none, none⟩)
       , ("B", ⟨none, none, none, none⟩)] ["A", "B"])
     "B" "A" ⟨none, none, none, none⟩ "q" (by decide) (by decide) (by decide) (by decide)⟩

/-- C1: the connect handler emits, in this order: one roster entry per
pre-existing session — a `user-joined` sent only to the new connection,
followed by a replayed `cursor-move` exactly when both stored cursor fields
are present — then the new connection's own `user-joined` with its fresh
color, then the `user-joined` broadcast whose exclusion list contains
exactly the new connection, and finally the `user-count` broadcast. -/
theorem connect_roster_then_self_then_broadcast (s : ServerState) (id : SessionId) (d : Draws)
    (hfresh : mapGet id s.connectedUsers = none) :
    (step s (.connect id d)).2 =
      (s.connectedUsers.map (fun e =>
        Effect.sendTo id (.userJoined e.1 e.2.color)
        :: (if truthy e.2.lastCursorPosition && truthy e.2.lastCursorNormal then
              [Effect.sendTo id
                (.cursorMove e.1 e.2.lastCursorPosition e.2.lastCursorNormal e.2.color none)]
            else []))).flatten
      ++ [ .sendTo id (.userJoined id (some (generateRandomColor d)))
         , .broadcast (.userJoined id (some (generateRandomColor d))) [id]
         , .broadcast (.userCount (s.connections.length + 1)) [] ] := by
  have hset := mapSet_fresh_append id
    { color := some (generateRandomColor d), persistentUserId := none
    , lastCursorPosition := none, lastCursorNormal := none } s.connectedUsers hfresh
  have hne := mapGet_none_entry_ne id s.connectedUsers hfresh
  have hlast : rosterEntry id
      (id, { color := some (generateRandomColor d), persistentUserId := none
           , lastCursorPosition := none, lastCursorNormal := none }) = [] := by
    simp [rosterEntry]
  have hmap : s.connectedUsers.map (rosterEntry id) = s.connectedUsers.map (fun e =>
      Effect.sendTo id (.userJoined e.1 e.2.color)
      :: (if truthy e.2.lastCursorPosition && truthy e.2.lastCursorNormal then
            [Effect.sendTo id
              (.cursorMove e.1 e.2.lastCursorPosition e.2.lastCursorNormal e.2.color none)]
          else [])) := by
    refine List.map_eq_map_iff.mpr ?_
    intro e he
    simp [rosterEntry, hne e he]
  simp only [step, onConnect, sendExistingUsers, hset, List.map_append, List.map_cons,
    List.map_nil, List.flatten_append, List.flatten_cons, List.flatten_nil, hlast, hmap,
    broadcastUserCount, List.append_nil, List.length_append, List.length_cons,
    List.length_nil, Nat.zero_add]

/-- Closed instance of the C1 theorem: a room with one session (with stored
cursor state) receives a fresh connection "B". -/
theorem connect_roster_then_self_then_broadcast_witness :
    mapGet "B" (ServerState.mk
      [("A", ⟨some ⟨10, 80, 60⟩, none, some ⟨1, 2, 3⟩, some ⟨0, 0, 1⟩⟩)] ["A"]).connectedUsers
      = none
    ∧ (step (ServerState.mk
        [("A", ⟨some ⟨10, 80, 60⟩, none, some ⟨1, 2, 3⟩, some ⟨0, 0, 1⟩⟩)] ["A"])
        (.connect "B" ⟨0, 0, 0⟩)).2 =
      ((ServerState.mk
        [("A", ⟨some ⟨10, 80, 60⟩, none, some ⟨1, 2, 3⟩, some ⟨0, 0, 1⟩⟩)] ["A"]).connectedUsers.map
        (fun e =>
          Effect.sendTo "B" (.userJoined e.1 e.2.color)
          :: (if truthy e.2.lastCursorPosition && truthy e.2.lastCursorNormal then
                [Effect.sendTo "B"
                  (.cursorMove e.1 e.2.lastCursorPosition e.2.lastCursorNormal e.2.color none)]
              else []))).flatten
      ++ [ .sendTo "B" (.userJoined "B" (some (generateRandomColor ⟨0, 0, 0⟩)))
         , .broadcast (.userJoined "B" (some (generateRandomColor ⟨0, 0, 0⟩))) ["B"]
         , .broadcast (.userCount ((ServerState.mk
             [("A", ⟨some ⟨10, 80, 60⟩, none, some ⟨1, 2, 3⟩, some ⟨0, 0, 1⟩⟩)]
             ["A"]).connections.length + 1)) [] ] :=
  ⟨by decide,
   connect_roster_then_self_then_broadcast
     (ServerState.mk [("A", ⟨some ⟨10, 80, 60⟩, none, some ⟨1, 2, 3⟩, some ⟨0, 0, 1⟩⟩)] ["A"])
     "B" ⟨0, 0, 0⟩ (by decide)⟩

end ColorPicker
